import Mathlib

/-
Verification of the channel-list-tool repository (a Slack slash-command bot).

The repository contains two variants of the same program:
  * src/app.js               — HTTP variant   (embedded here with the prefix `app`)
  * src/unnamed/part_000     — Socket-Mode variant (embedded here with the prefix `sock`)

Both variants implement the /channel-list command: parse user mentions from the
command text, resolve the mentioned users, fetch each user's channel memberships
with cursor pagination, and send one formatted response (usage error, single-user
listing, or two-user comparison).  Remote calls and responses are modelled as an
explicit event trace.
-/

namespace ChannelListTool

/-! ## Input parsing (models `extractUserId` and the `trim().split(/\s+/)` pipeline) -/

/-- JS whitespace for the purposes of `trim` and `split(/\s+/)` is modelled by
`Char.isWhitespace`. -/
def isWS (c : Char) : Bool := c.isWhitespace

/-- Remove leading whitespace (the left half of `String.prototype.trim`). -/
def trimLeftL (s : List Char) : List Char := s.dropWhile isWS

/-- Remove trailing whitespace (the right half of `String.prototype.trim`). -/
def trimRightL : List Char → List Char
  | [] => []
  | c :: rest =>
    let r := trimRightL rest
    if r = [] ∧ isWS c then [] else c :: r

/-- `String.prototype.trim`: remove leading and trailing whitespace. -/
def jsTrimL (s : List Char) : List Char := trimRightL (trimLeftL s)

/-- Accumulator-based splitting of a character list into maximal runs of
non-whitespace characters (`split(/\s+/)` on a trimmed string). -/
def wordsAux : List Char → List Char → List (List Char)
  | [], cur => if cur = [] then [] else [cur.reverse]
  | c :: rest, cur =>
    if isWS c then
      if cur = [] then wordsAux rest [] else cur.reverse :: wordsAux rest []
    else wordsAux rest (c :: cur)

/-- The maximal non-whitespace runs of a string. -/
def wordsL (s : List Char) : List (List Char) := wordsAux s []

/-- The character class `[A-Z0-9]` of the mention regex. -/
def ucAlnum (c : Char) : Bool := c.isUpper || c.isDigit

/-- Try to match the regex `<@([A-Z0-9]+)>` at the start of the suffix `s`,
returning the captured group.  `[A-Z0-9]+` is greedy and must be followed by
a literal closing angle bracket. -/
def extractAt (s : List Char) : Option (List Char) :=
  match s with
  | '<' :: '@' :: rest =>
    match rest.takeWhile ucAlnum, rest.dropWhile ucAlnum with
    | [], _ => none
    | idPart, '>' :: _ => some idPart
    | _, _ => none
  | _ => none

/-- Leftmost match of `<@([A-Z0-9]+)>` in a character list: try each start
position from the left (JS `String.prototype.match` without the `g` flag). -/
def extractUserIdL : List Char → Option (List Char)
  | [] => none
  | c :: rest =>
    match extractAt (c :: rest) with
    | some idPart => some idPart
    | none => extractUserIdL rest

/-- `extractUserId` of both variants: the captured user ID of the first
`<@([A-Z0-9]+)>` match, or `null` (here `none`). -/
def extractUserId (t : List Char) : Option String :=
  (extractUserIdL t).map String.mk

/-- Tokens of src/app.js: `command.text.trim().split(/\s+/)`.  On a string that
trims to empty, JS `split` yields a single empty token. -/
def appTokens (text : String) : List (List Char) :=
  let t := jsTrimL text.data
  if t = [] then [[]] else wordsL t

/-- Parsed user IDs of src/app.js:
`users.map(extractUserId).filter(id => id !== null)`. -/
def appParseIds (text : String) : List String :=
  (appTokens text).filterMap extractUserId

/-- Tokens of src/unnamed/part_000:
`(command.text || '').trim().split(/\s+/).filter(Boolean)`. -/
def sockTokens (text : String) : List (List Char) :=
  (appTokens text).filter (fun t => t ≠ [])

/-- Parsed user IDs of src/unnamed/part_000:
`users.map(extractUserId).filter(Boolean)`. -/
def sockParseIds (text : String) : List String :=
  (sockTokens text).filterMap extractUserId

/-- Modelled from the spec (§4.1), for the refinement claim about the Input
Parser: split on whitespace with empty tokens discarded, then extract a user ID
from each token via the mention pattern, silently dropping tokens that do not
match. -/
def specTokens (text : String) : List (List Char) := wordsL text.data

/-- Modelled from the spec (§4.1): the ordered, non-deduplicated sequence of
user IDs extracted from the tokens. -/
def specParseIds (text : String) : List String :=
  (specTokens text).filterMap extractUserId

/-! ## Data model -/

/-- A channel as used by the program: identity is `id`, display uses `name`. -/
structure Channel where
  id : String
  name : String
deriving DecidableEq

/-- A user profile as returned by `users.info` (`response.user`). -/
structure UserProfile where
  id : String
  real_name : String
  name : String
deriving DecidableEq

/-- One page of `users.conversations`: a list of channels plus the next cursor
(`response_metadata.next_cursor`; `none` models an absent metadata/cursor
field, `some ""` the empty-string cursor Slack returns on the last page). -/
structure ChannelPage where
  channels : List Channel
  next_cursor : Option String
deriving DecidableEq

/-- The external collaborators: `users.info` and `users.conversations`.
`Except` models a rejected promise carrying `error.message`. -/
structure Env where
  usersInfo : String → Except String UserProfile
  conversations : String → Option String → Except String ChannelPage

/-- One Slack Block-Kit block as built by the handlers: a `section` with
`mrkdwn` text, or a `divider`. -/
inductive Block where
  | sect (text : String)
  | divider
deriving DecidableEq

/-- A `say` payload: the block list plus the plain-text fallback. -/
structure Msg where
  blocks : List Block
  text : String
deriving DecidableEq

/-- The outbound effects of one invocation, in order: the acknowledgment,
each remote call, and each content response. -/
inductive Event where
  | ack
  | usersInfo (id : String)
  | conversations (user : String) (cursor : Option String)
  | say (m : Msg)
deriving DecidableEq

/-! ## Two-user comparison (identical in both variants) -/

/-- The channel IDs of a channel list. -/
def idsOf (l : List Channel) : List String := l.map Channel.id

/-- `new Set(list.map(c => c.id)).has(i)`: membership of `i` in the ID set. -/
def hasId (l : List Channel) (i : String) : Bool := decide (i ∈ idsOf l)

/-- `channels1.filter(c => channels2Ids.has(c.id))` (src/app.js line 103;
`shared` in src/unnamed/part_000). -/
def sharedChannels (c1 c2 : List Channel) : List Channel :=
  c1.filter (fun c => hasId c2 c.id)

/-- `channels1.filter(c => !channels2Ids.has(c.id))` (src/app.js line 104;
`u1Only` in src/unnamed/part_000). -/
def user1UniqueChannels (c1 c2 : List Channel) : List Channel :=
  c1.filter (fun c => ! hasId c2 c.id)

/-- `channels2.filter(c => !channels1Ids.has(c.id))` (src/app.js line 105;
`u2Only` in src/unnamed/part_000). -/
def user2UniqueChannels (c1 c2 : List Channel) : List Channel :=
  c2.filter (fun c => ! hasId c1 c.id)

/-- The finite set of channel IDs of a channel list. -/
def idFinset (l : List Channel) : Finset String := (l.map Channel.id).toFinset

/-! ## Rendering -/

/-- JS `Array.prototype.join('\n')`. -/
def joinNL : List String → String
  | [] => ""
  | [s] => s
  | s :: rest => s ++ "\n" ++ joinNL rest

/-- The link-style channel reference `<#id|name>` (the `link` constant of
src/app.js's `getChannelText`). -/
def linkRef (c : Channel) : String :=
  "<#" ++ c.id ++ "|" ++ c.name ++ ">"

/-- One rendered channel line: `- <#id|name>` (the `getChannelText`/`link`
helpers of the two variants produce the same string). -/
def chanLink (c : Channel) : String :=
  "- " ++ linkRef c

/-- Display name in src/unnamed/part_000: `u.real_name || u.name`. -/
def dispSock (u : UserProfile) : String :=
  if u.real_name = "" then u.name else u.real_name

/-- Single-user itemization of src/unnamed/part_000:
`list || '_No channels found._'` where `list = ch.map(link).join('\n')`. -/
def sockSingleListStr (ch : List Channel) : String :=
  let list := joinNL (ch.map chanLink)
  if list = "" then "_No channels found._" else list

/-- Shared-channel itemization of src/unnamed/part_000. -/
def sockSharedStr (shared : List Channel) : String :=
  if shared.length ≠ 0 then joinNL (shared.map chanLink)
  else "_No shared channels found._"

/-- Unique-channel itemization of src/unnamed/part_000 (used for both users). -/
def sockUniqueStr (u : UserProfile) (l : List Channel) : String :=
  if l.length ≠ 0 then joinNL (l.map chanLink)
  else "_" ++ dispSock u ++ " has no unique channels._"

/-- One rendered channel line of the src/app.js single-user branch:
`- #${c.name}` (note: no channel ID). -/
def appSingleItem (c : Channel) : String := "- #" ++ c.name

/-- Single-user itemization of src/app.js: `channels.map(c => ...).join('\n')`
(note: no placeholder for the empty list). -/
def appSingleListStr (ch : List Channel) : String :=
  joinNL (ch.map appSingleItem)

/-- Shared-channel itemization of src/app.js. -/
def appSharedStr (shared : List Channel) : String :=
  if shared.length > 0 then joinNL (shared.map chanLink)
  else "No shared channels found."

/-- Unique-channel itemization of src/app.js (used for both users). -/
def appUniqueStr (u : UserProfile) (l : List Channel) : String :=
  if l.length > 0 then joinNL (l.map chanLink)
  else u.real_name ++ " has no unique channels."

/-- Usage-error message of src/unnamed/part_000. -/
def sockUsageMsg : Msg :=
  { blocks := [Block.sect ("Please specify *one or two* users.\n\n*Usage:* `/channel-list @user1 [@user2]`")],
    text := "Please specify one or two users. Usage: /channel-list @user1 [@user2]" }

/-- Generic error message of src/unnamed/part_000: `An error occurred: ${err.message}`. -/
def sockErrMsg (e : String) : Msg :=
  { blocks := [], text := "An error occurred: " ++ e }

/-- Single-user report of src/unnamed/part_000. -/
def sockSingleMsg (u : UserProfile) (ch : List Channel) : Msg :=
  { blocks := [Block.sect ("*Channels for " ++ dispSock u ++ ":*\n\n*Total:* "
      ++ toString ch.length ++ "\n\n" ++ sockSingleListStr ch)],
    text := "Channel list for " ++ dispSock u ++ "." }

/-- Two-user comparison report of src/unnamed/part_000. -/
def sockCompareMsg (u1 u2 : UserProfile) (c1 c2 : List Channel) : Msg :=
  let shared := sharedChannels c1 c2
  let u1Only := user1UniqueChannels c1 c2
  let u2Only := user2UniqueChannels c1 c2
  { blocks :=
      [ Block.sect ("*Channel Membership Report for " ++ dispSock u1 ++ " and "
          ++ dispSock u2 ++ "*"),
        Block.divider,
        Block.sect ("*Totals:* " ++ toString c1.length ++ " for " ++ dispSock u1
          ++ ", " ++ toString c2.length ++ " for " ++ dispSock u2
          ++ "\n*Shared:* " ++ toString shared.length
          ++ "\n*Unique:* " ++ toString u1Only.length ++ " vs " ++ toString u2Only.length),
        Block.divider,
        Block.sect ("*Shared Channels*\n" ++ sockSharedStr shared),
        Block.sect ("*Unique to " ++ dispSock u1 ++ "*\n" ++ sockUniqueStr u1 u1Only),
        Block.sect ("*Unique to " ++ dispSock u2 ++ "*\n" ++ sockUniqueStr u2 u2Only) ],
    text := "Channel membership report." }

/-- Usage-error message of src/app.js for zero mentioned users. -/
def appUsageMsg : Msg :=
  { blocks := [Block.sect ("Please specify one or two users to get their channel list. \n\n*Usage:* `/channel-list @user1 [@user2]`")],
    text := "Please specify one or two users to get their channel list. Usage: /channel-list @user1 [@user2]" }

/-- Usage-error message of src/app.js for more than two mentioned users. -/
def appMaxTwoMsg : Msg :=
  { blocks := [Block.sect ("This command supports a maximum of two users. \n\n*Usage:* `/channel-list @user1 [@user2]`")],
    text := "This command supports a maximum of two users." }

/-- Generic error message of src/app.js. -/
def appErrMsg (e : String) : Msg :=
  { blocks := [],
    text := "An error occurred while processing your request. Please check the permissions and try again. Error: " ++ e }

/-- Single-user report of src/app.js. -/
def appSingleMsg (u : UserProfile) (ch : List Channel) : Msg :=
  { blocks := [Block.sect ("*Here is the list of channels for " ++ u.real_name
      ++ ":*\n\nTotal Channels: " ++ toString ch.length ++ "\n\n" ++ appSingleListStr ch)],
    text := "Channel list for " ++ u.real_name ++ "." }

/-- Two-user comparison report of src/app.js. -/
def appCompareMsg (u1 u2 : UserProfile) (c1 c2 : List Channel) : Msg :=
  let shared := sharedChannels c1 c2
  let u1Only := user1UniqueChannels c1 c2
  let u2Only := user2UniqueChannels c1 c2
  { blocks :=
      [ Block.sect ("*Channel Membership Report for " ++ u1.real_name ++ " and "
          ++ u2.real_name ++ "*"),
        Block.divider,
        Block.sect ("*Total Channels:* " ++ toString c1.length ++ " for " ++ u1.real_name
          ++ ", " ++ toString c2.length ++ " for " ++ u2.real_name
          ++ "\n*Shared Channels:* " ++ toString shared.length
          ++ "\n*Unique Channels:* " ++ toString u1Only.length ++ " for " ++ u1.real_name
          ++ ", " ++ toString u2Only.length ++ " for " ++ u2.real_name),
        Block.divider,
        Block.sect ("*Shared Channels*\n" ++ appSharedStr shared),
        Block.sect ("*Channels Unique to " ++ u1.real_name ++ "*\n" ++ appUniqueStr u1 u1Only),
        Block.sect ("*Channels Unique to " ++ u2.real_name ++ "*\n" ++ appUniqueStr u2 u2Only) ],
    text := "Channel membership report." }

/-! ## Remote calls -/

/-- `Promise.all` over already-ordered results: all requests are issued; the
joined promise yields the list of values, or the first rejection. -/
def collectExcept {α : Type} : List (Except String α) → Except String (List α)
  | [] => Except.ok []
  | Except.error e :: _ => Except.error e
  | Except.ok a :: rest =>
    match collectExcept rest with
    | Except.error e => Except.error e
    | Except.ok as => Except.ok (a :: as)

/-- `Promise.all(userIds.map(id => app.client.users.info({user: id})))`. -/
def resolveAll (env : Env) (ids : List String) : Except String (List UserProfile) :=
  collectExcept (ids.map env.usersInfo)

/-- The body of `fetchUserChannels` (identical loop in both variants):
`do { res = users.conversations(user, cursor); all = all.concat(res.channels);
cursor = res.response_metadata?.next_cursor || null } while (cursor)`.
Each iteration appends one `conversations` event.  `fuel` bounds the number of
iterations the model can take; `none` means the loop had not finished within
`fuel` requests. -/
def fetchGoE (env : Env) (uid : String) :
    Option String → List Channel → List Event → Nat →
    Option (List Event × Except String (List Channel))
  | _, _, _, 0 => none
  | cursor, acc, evs, fuel + 1 =>
    match env.conversations uid cursor with
    | Except.error e => some (evs ++ [Event.conversations uid cursor], Except.error e)
    | Except.ok page =>
      let acc2 := acc ++ page.channels
      let evs2 := evs ++ [Event.conversations uid cursor]
      match page.next_cursor with
      | none => some (evs2, Except.ok acc2)
      | some s =>
        if s = "" then some (evs2, Except.ok acc2)
        else fetchGoE env uid (some s) acc2 evs2 fuel

/-- `fetchUserChannels(userId)`: run the pagination loop from a null cursor. -/
def fetchUserChannelsE (env : Env) (uid : String) (fuel : Nat) :
    Option (List Event × Except String (List Channel)) :=
  fetchGoE env uid none [] [] fuel

/-! ## The command handlers -/

/-- The `/channel-list` handler of src/unnamed/part_000, as the event trace of
one invocation.  `none` means the invocation had not completed within `fuel`
pagination requests per user.  The final `| _ => none` arms of the matches on
the resolved-profile list are unreachable (resolution preserves length). -/
def handlerSock (env : Env) (text : String) (fuel : Nat) : Option (List Event) :=
  let userIds := sockParseIds text
  if userIds.length = 0 ∨ userIds.length > 2 then
    some [Event.ack, Event.say sockUsageMsg]
  else
    let infoEvs := userIds.map Event.usersInfo
    match resolveAll env userIds with
    | Except.error e => some (Event.ack :: infoEvs ++ [Event.say (sockErrMsg e)])
    | Except.ok userInfo =>
      if userIds.length = 1 then
        match userInfo with
        | [u1] =>
          match fetchUserChannelsE env u1.id fuel with
          | none => none
          | some (fevs, Except.error e) =>
            some (Event.ack :: infoEvs ++ fevs ++ [Event.say (sockErrMsg e)])
          | some (fevs, Except.ok ch) =>
            some (Event.ack :: infoEvs ++ fevs ++ [Event.say (sockSingleMsg u1 ch)])
        | _ => none
      else
        match userInfo with
        | [u1, u2] =>
          match fetchUserChannelsE env u1.id fuel, fetchUserChannelsE env u2.id fuel with
          | some (evs1, r1), some (evs2, r2) =>
            match r1, r2 with
            | Except.error e, _ =>
              some (Event.ack :: infoEvs ++ evs1 ++ evs2 ++ [Event.say (sockErrMsg e)])
            | Except.ok _, Except.error e =>
              some (Event.ack :: infoEvs ++ evs1 ++ evs2 ++ [Event.say (sockErrMsg e)])
            | Except.ok c1, Except.ok c2 =>
              some (Event.ack :: infoEvs ++ evs1 ++ evs2
                ++ [Event.say (sockCompareMsg u1 u2 c1 c2)])
          | _, _ => none
        | _ => none

/-- The `/channel-list` handler of src/app.js, as the event trace of one
invocation.  Unlike the Socket-Mode variant it only rejects zero mentions up
front; with three or more parsed IDs it still resolves every user before
sending the max-two-users usage message. -/
def handlerApp (env : Env) (text : String) (fuel : Nat) : Option (List Event) :=
  let userIds := appParseIds text
  if userIds.length = 0 then
    some [Event.ack, Event.say appUsageMsg]
  else
    let infoEvs := userIds.map Event.usersInfo
    match resolveAll env userIds with
    | Except.error e => some (Event.ack :: infoEvs ++ [Event.say (appErrMsg e)])
    | Except.ok userInfo =>
      if userIds.length = 1 then
        match userInfo with
        | [u1] =>
          match fetchUserChannelsE env u1.id fuel with
          | none => none
          | some (fevs, Except.error e) =>
            some (Event.ack :: infoEvs ++ fevs ++ [Event.say (appErrMsg e)])
          | some (fevs, Except.ok ch) =>
            some (Event.ack :: infoEvs ++ fevs ++ [Event.say (appSingleMsg u1 ch)])
        | _ => none
      else if userIds.length = 2 then
        match userInfo with
        | [u1, u2] =>
          match fetchUserChannelsE env u1.id fuel, fetchUserChannelsE env u2.id fuel with
          | some (evs1, r1), some (evs2, r2) =>
            match r1, r2 with
            | Except.error e, _ =>
              some (Event.ack :: infoEvs ++ evs1 ++ evs2 ++ [Event.say (appErrMsg e)])
            | Except.ok _, Except.error e =>
              some (Event.ack :: infoEvs ++ evs1 ++ evs2 ++ [Event.say (appErrMsg e)])
            | Except.ok c1, Except.ok c2 =>
              some (Event.ack :: infoEvs ++ evs1 ++ evs2
                ++ [Event.say (appCompareMsg u1 u2 c1 c2)])
          | _, _ => none
        | _ => none
      else
        some (Event.ack :: infoEvs ++ [Event.say appMaxTwoMsg])

/-! ## Trace observations -/

/-- Is an event a content response? -/
def isSay : Event → Bool
  | Event.say _ => true
  | _ => false

/-- Is an event a remote call (directory lookup or channel page request)? -/
def isRemote : Event → Bool
  | Event.usersInfo _ => true
  | Event.conversations _ _ => true
  | _ => false

/-- Is an event a channel-page request? -/
def isConv : Event → Bool
  | Event.conversations _ _ => true
  | _ => false

/-- The content responses of a trace, in order. -/
def saysOf (tr : List Event) : List Msg :=
  tr.filterMap (fun e => match e with | Event.say m => some m | _ => none)

/-- The number of remote calls in a trace. -/
def countRemote (tr : List Event) : Nat := (tr.filter isRemote).length

/-! ## Simulated upstreams -/

/-- The cursor with which page `k` is requested in the simulated paginated
upstream: the first request carries a null cursor, later requests carry a
cursor of length `k`. -/
def pageCursor (k : Nat) : Option String :=
  if k = 0 then none else some (String.mk (List.replicate k 'c'))

/-- A well-behaved paginated upstream over a fixed page list: every page
carries a non-empty next cursor except the last, whose cursor is the empty
string.  The requested page index is recovered from the cursor length. -/
def pagedPage (pages : List (List Channel)) (cursor : Option String) : ChannelPage :=
  let i := match cursor with | none => 0 | some s => s.data.length
  { channels := pages.getD i [],
    next_cursor :=
      if i + 1 < pages.length then some (String.mk (List.replicate (i + 1) 'c'))
      else some "" }

/-- The environment whose `users.conversations` is the simulated paginated
upstream. -/
def pagedEnv (pages : List (List Channel)) : Env :=
  { usersInfo := fun _ => Except.error ("unused"),
    conversations := fun _ cursor => Except.ok (pagedPage pages cursor) }

/-- The page requests the fetcher should issue against `pagedEnv pages`:
one per page, in page order. -/
def pagedEvents (uid : String) (pages : List (List Channel)) : List Event :=
  (List.range pages.length).map (fun k => Event.conversations uid (pageCursor k))

/-- A misbehaving upstream that answers every page request with the same
non-empty cursor. -/
def loopEnv : Env :=
  { usersInfo := fun _ => Except.error ("unused"),
    conversations := fun _ _ => Except.ok { channels := [], next_cursor := some ("LOOP") } }

/-- A fully successful environment used to instantiate universally quantified
theorems: every lookup succeeds and every user is in one channel. -/
def envOk : Env :=
  { usersInfo := fun i => Except.ok { id := i, real_name := "Alice", name := "alice" },
    conversations := fun _ _ => Except.ok { channels := [{ id := "C1", name := "general" }], next_cursor := some "" } }

/-- An environment whose directory lookups all fail. -/
def envNoUser : Env :=
  { usersInfo := fun _ => Except.error ("user_not_found"),
    conversations := fun _ _ => Except.ok { channels := [], next_cursor := some "" } }

/-! ## Failure scenarios (used to state the error-collapse claim) -/

/-- The first channel-fetch failure of an invocation whose resolved profiles
are `us`, mirroring how the handlers sequence their fetches: the single fetch
for one user, or the pair of fetches for two users with the first user's
failure taking precedence. -/
def firstFetchError (env : Env) (us : List UserProfile) (fuel : Nat) : Option String :=
  match us with
  | [u1] =>
    match fetchUserChannelsE env u1.id fuel with
    | some (_, Except.error e) => some e
    | _ => none
  | [u1, u2] =>
    match fetchUserChannelsE env u1.id fuel, fetchUserChannelsE env u2.id fuel with
    | some (_, Except.error e), some _ => some e
    | some (_, Except.ok _), some (_, Except.error e) => some e
    | _, _ => none
  | _ => none

/-- `e` is the failure that aborts the invocation: either the resolution of
the parsed IDs rejects with `e`, or resolution succeeds and the first
channel-fetch failure is `e`. -/
def invocationFails (env : Env) (ids : List String) (fuel : Nat) (e : String) : Prop :=
  resolveAll env ids = Except.error e ∨
    (∃ us, resolveAll env ids = Except.ok us ∧ firstFetchError env us fuel = some e)

/-- The single response of the src/app.js handler when three or more users are
mentioned: the max-two-users usage message, unless a lookup failed first. -/
def appOver2Msg (env : Env) (ids : List String) : Msg :=
  match resolveAll env ids with
  | Except.error e => appErrMsg e
  | Except.ok _ => appMaxTwoMsg

/-! ## Lemmas about the tokenizer -/

theorem wordsAux_trimLeftL (s : List Char) :
    wordsAux (trimLeftL s) [] = wordsAux s [] := by
  induction s with
  | nil => rfl
  | cons c rest ih =>
    by_cases hc : isWS c
    · rw [trimLeftL, List.dropWhile_cons]
      simp only [hc, if_true]
      rw [← trimLeftL, ih]
      simp [wordsAux, hc]
    · rw [trimLeftL, List.dropWhile_cons]
      simp [hc]

theorem wordsAux_eq_nil_of_trimRightL (s : List Char) (h : trimRightL s = []) :
    wordsAux s [] = [] := by
  induction s with
  | nil => rfl
  | cons c rest ih =>
    simp only [trimRightL] at h
    by_cases hcond : trimRightL rest = [] ∧ isWS c
    · simp [wordsAux, hcond.2, ih hcond.1]
    · rw [if_neg hcond] at h
      exact absurd h (by simp)

theorem wordsAux_trimRightL (s : List Char) :
    ∀ cur, wordsAux (trimRightL s) cur = wordsAux s cur := by
  induction s with
  | nil => intro cur; rfl
  | cons c rest ih =>
    intro cur
    simp only [trimRightL]
    by_cases hcond : trimRightL rest = [] ∧ isWS c
    · rw [if_pos hcond]
      have hrest : wordsAux rest [] = [] := wordsAux_eq_nil_of_trimRightL rest hcond.1
      by_cases hcur : cur = [] <;> simp [wordsAux, hcond.2, hcur, hrest]
    · rw [if_neg hcond]
      by_cases hc : isWS c
      · by_cases hcur : cur = [] <;> simp [wordsAux, hc, hcur, ih]
      · simp [wordsAux, hc, ih]

theorem wordsL_jsTrimL (s : List Char) : wordsL (jsTrimL s) = wordsL s := by
  rw [wordsL, jsTrimL, wordsAux_trimRightL, ← wordsL]
  rw [wordsL, wordsAux_trimLeftL, ← wordsL]

theorem ne_nil_of_mem_wordsAux (s : List Char) :
    ∀ cur t, t ∈ wordsAux s cur → t ≠ [] := by
  induction s with
  | nil =>
    intro cur t ht
    rw [wordsAux] at ht
    by_cases hcur : cur = []
    · simp [hcur] at ht
    · simp only [hcur, if_false, List.mem_singleton] at ht
      simp [ht, hcur]
  | cons c rest ih =>
    intro cur t ht
    rw [wordsAux] at ht
    by_cases hc : isWS c
    · simp only [hc, if_true] at ht
      by_cases hcur : cur = []
      · rw [if_pos hcur] at ht
        exact ih [] t ht
      · rw [if_neg hcur] at ht
        rcases List.mem_cons.1 ht with h | h
        · simp [h, hcur]
        · exact ih [] t h
    · simp only [hc, if_false] at ht
      exact ih (c :: cur) t ht

/-! ## Lemmas about the comparison -/

theorem mem_idFinset {l : List Channel} {i : String} :
    i ∈ idFinset l ↔ ∃ c ∈ l, c.id = i := by
  simp [idFinset]

theorem hasId_iff {l : List Channel} {i : String} :
    hasId l i = true ↔ ∃ c ∈ l, c.id = i := by
  simp [hasId, idsOf]

theorem mem_idFinset_shared {c1 c2 : List Channel} {i : String} :
    i ∈ idFinset (sharedChannels c1 c2) ↔
      (∃ c ∈ c1, c.id = i) ∧ (∃ c ∈ c2, c.id = i) := by
  rw [mem_idFinset]
  constructor
  · rintro ⟨a, ha, rfl⟩
    rw [sharedChannels, List.mem_filter] at ha
    exact ⟨⟨a, ha.1, rfl⟩, hasId_iff.1 ha.2⟩
  · rintro ⟨⟨a, ha, rfl⟩, h2⟩
    exact ⟨a, List.mem_filter.2 ⟨ha, hasId_iff.2 h2⟩, rfl⟩

theorem mem_idFinset_u1 {c1 c2 : List Channel} {i : String} :
    i ∈ idFinset (user1UniqueChannels c1 c2) ↔
      (∃ c ∈ c1, c.id = i) ∧ ¬ (∃ c ∈ c2, c.id = i) := by
  rw [mem_idFinset]
  constructor
  · rintro ⟨a, ha, rfl⟩
    rw [user1UniqueChannels, List.mem_filter, Bool.not_eq_true'] at ha
    refine ⟨⟨a, ha.1, rfl⟩, fun h => ?_⟩
    rw [← hasId_iff] at h
    simp [ha.2] at h
  · rintro ⟨⟨a, ha, rfl⟩, h2⟩
    refine ⟨a, List.mem_filter.2 ⟨ha, ?_⟩, rfl⟩
    rw [Bool.not_eq_true']
    rw [← hasId_iff] at h2
    simpa using h2

theorem mem_idFinset_u2 {c1 c2 : List Channel} {i : String} :
    i ∈ idFinset (user2UniqueChannels c1 c2) ↔
      (∃ c ∈ c2, c.id = i) ∧ ¬ (∃ c ∈ c1, c.id = i) := by
  rw [mem_idFinset]
  constructor
  · rintro ⟨a, ha, rfl⟩
    rw [user2UniqueChannels, List.mem_filter, Bool.not_eq_true'] at ha
    refine ⟨⟨a, ha.1, rfl⟩, fun h => ?_⟩
    rw [← hasId_iff] at h
    simp [ha.2] at h
  · rintro ⟨⟨a, ha, rfl⟩, h2⟩
    refine ⟨a, List.mem_filter.2 ⟨ha, ?_⟩, rfl⟩
    rw [Bool.not_eq_true']
    rw [← hasId_iff] at h2
    simpa using h2

/-! ## Lemmas about pagination -/

theorem pageCursor_succ (k : Nat) :
    pageCursor (k + 1) = some (String.mk (List.replicate (k + 1) 'c')) := by
  simp [pageCursor]

theorem pagedPage_pageCursor (pages : List (List Channel)) (k : Nat) :
    pagedPage pages (pageCursor k) =
      { channels := pages.getD k [],
        next_cursor :=
          if k + 1 < pages.length then some (String.mk (List.replicate (k + 1) 'c'))
          else some "" } := by
  rw [pagedPage.eq_def, pageCursor]
  by_cases hk : k = 0 <;> simp [hk]

theorem fetchGoE_pagedEnv (pages : List (List Channel)) (uid : String) :
    ∀ fuel k acc evs, k < pages.length → pages.length - k ≤ fuel →
      fetchGoE (pagedEnv pages) uid (pageCursor k) acc evs fuel =
        some (evs ++ (List.range' k (pages.length - k)).map
                (fun j => Event.conversations uid (pageCursor j)),
              Except.ok (acc ++ (pages.drop k).flatten)) := by
  intro fuel
  induction fuel with
  | zero => intro k acc evs hk hfuel; omega
  | succ m ih =>
    intro k acc evs hk hfuel
    rw [fetchGoE]
    show (match (pagedEnv pages).conversations uid (pageCursor k) with
      | Except.error e =>
          some (evs ++ [Event.conversations uid (pageCursor k)], Except.error e)
      | Except.ok page =>
        let acc2 := acc ++ page.channels
        let evs2 := evs ++ [Event.conversations uid (pageCursor k)]
        match page.next_cursor with
        | none => some (evs2, Except.ok acc2)
        | some s =>
          if s = "" then some (evs2, Except.ok acc2)
          else fetchGoE (pagedEnv pages) uid (some s) acc2 evs2 m) = _
    have hconv : (pagedEnv pages).conversations uid (pageCursor k) =
        Except.ok (pagedPage pages (pageCursor k)) := rfl
    rw [hconv, pagedPage_pageCursor]
    by_cases h2 : k + 1 < pages.length
    · simp only [h2, if_true]
      have hs : String.mk (List.replicate (k + 1) 'c') ≠ "" := by
        intro hc
        have : (String.mk (List.replicate (k + 1) 'c')).data = ("" : String).data := by
          rw [hc]
        simp at this
      simp only [hs, if_false]
      rw [← pageCursor_succ, ih (k + 1) _ _ h2 (by omega)]
      have hdrop : (pages.drop k).flatten = pages.getD k [] ++ (pages.drop (k + 1)).flatten := by
        rw [List.drop_eq_getElem_cons hk, List.flatten_cons, List.getD_eq_getElem _ _ hk]
      have hrange : pages.length - k = (pages.length - (k + 1)) + 1 := by omega
      rw [hdrop, hrange, List.range'_succ]
      simp [List.append_assoc]
    · simp only [h2, if_false]
      have hlen : pages.length = k + 1 := by omega
      have hdrop : (pages.drop k).flatten = pages.getD k [] := by
        rw [List.drop_eq_getElem_cons hk, List.flatten_cons, List.getD_eq_getElem _ _ hk]
        have : pages.drop (k + 1) = [] := List.drop_eq_nil_of_le (by omega)
        simp [this]
      have hrange : pages.length - k = 1 := by omega
      rw [hdrop, hrange]
      simp

/-- The pagination loop of `fetchUserChannels` makes no progress check against
a repeating cursor: against `loopEnv` it never finishes, whatever the fuel. -/
theorem fetchGoE_loopEnv_none (uid : String) :
    ∀ fuel cursor acc evs, fetchGoE loopEnv uid cursor acc evs fuel = none := by
  intro fuel
  induction fuel with
  | zero => intro cursor acc evs; rfl
  | succ m ih =>
    intro cursor acc evs
    rw [fetchGoE]
    show (match loopEnv.conversations uid cursor with
      | Except.error e => some (evs ++ [Event.conversations uid cursor], Except.error e)
      | Except.ok page =>
        let acc2 := acc ++ page.channels
        let evs2 := evs ++ [Event.conversations uid cursor]
        match page.next_cursor with
        | none => some (evs2, Except.ok acc2)
        | some s =>
          if s = "" then some (evs2, Except.ok acc2)
          else fetchGoE loopEnv uid (some s) acc2 evs2 m) = none
    have hconv : loopEnv.conversations uid cursor =
        Except.ok { channels := [], next_cursor := some ("LOOP") } := rfl
    rw [hconv]
    have hs : ("LOOP" : String) ≠ "" := by decide
    simp only [hs, if_false]
    exact ih _ _ _

/-! ## Lemmas about traces -/

theorem isRemote_of_isConv {e : Event} (h : isConv e = true) : isRemote e = true := by
  cases e <;> simp_all [isConv, isRemote]

theorem saysOf_append (l1 l2 : List Event) :
    saysOf (l1 ++ l2) = saysOf l1 ++ saysOf l2 := by
  simp [saysOf]

theorem saysOf_eq_nil_of_remote (l : List Event) (h : ∀ e ∈ l, isRemote e = true) :
    saysOf l = [] := by
  induction l with
  | nil => rfl
  | cons e rest ih =>
    have he := h e (List.mem_cons_self e rest)
    have hrest := ih (fun x hx => h x (List.mem_cons_of_mem e hx))
    cases e <;> simp_all [saysOf, isRemote]

theorem remote_infoEvs (ids : List String) :
    ∀ e ∈ ids.map Event.usersInfo, isRemote e = true := by
  intro e he
  rcases List.mem_map.1 he with ⟨i, _, rfl⟩
  rfl

theorem fetchGoE_events (env : Env) (uid : String) :
    ∀ fuel cursor acc evs evs2 r,
      fetchGoE env uid cursor acc evs fuel = some (evs2, r) →
      ∃ d, evs2 = evs ++ d ∧ ∀ e ∈ d, isConv e = true := by
  intro fuel
  induction fuel with
  | zero =>
    intro cursor acc evs evs2 r h
    exact absurd h (by rw [fetchGoE]; simp)
  | succ m ih =>
    intro cursor acc evs evs2 r h
    rw [fetchGoE] at h
    rcases hconv : env.conversations uid cursor with e | page
    · simp only [hconv] at h
      obtain ⟨rfl, rfl⟩ : evs ++ [Event.conversations uid cursor] = evs2 ∧ Except.error e = r := by
        have := Option.some.inj h
        exact ⟨congrArg Prod.fst this, congrArg Prod.snd this⟩
      exact ⟨[Event.conversations uid cursor], rfl, by intro x hx; simp at hx; subst hx; rfl⟩
    · simp only [hconv] at h
      rcases hcur : page.next_cursor with _ | s
      · simp only [hcur] at h
        obtain ⟨rfl, rfl⟩ : evs ++ [Event.conversations uid cursor] = evs2 ∧
            Except.ok (acc ++ page.channels) = r := by
          have := Option.some.inj h
          exact ⟨congrArg Prod.fst this, congrArg Prod.snd this⟩
        exact ⟨[Event.conversations uid cursor], rfl, by intro x hx; simp at hx; subst hx; rfl⟩
      · simp only [hcur] at h
        by_cases hs : s = ""
        · rw [if_pos hs] at h
          obtain ⟨rfl, rfl⟩ : evs ++ [Event.conversations uid cursor] = evs2 ∧
              Except.ok (acc ++ page.channels) = r := by
            have := Option.some.inj h
            exact ⟨congrArg Prod.fst this, congrArg Prod.snd this⟩
          exact ⟨[Event.conversations uid cursor], rfl, by intro x hx; simp at hx; subst hx; rfl⟩
        · rw [if_neg hs] at h
          rcases ih _ _ _ _ _ h with ⟨d, hd, hconvs⟩
          refine ⟨Event.conversations uid cursor :: d, by simp [hd], ?_⟩
          intro x hx
          rcases List.mem_cons.1 hx with rfl | hx
          · rfl
          · exact hconvs x hx

theorem remote_pre_of_fetch (ids : List String) (d : List Event)
    (hd : ∀ e ∈ d, isConv e = true) :
    ∀ e ∈ ids.map Event.usersInfo ++ d, isRemote e = true := by
  intro e he
  rcases List.mem_append.1 he with he | he
  · exact remote_infoEvs ids e he
  · exact isRemote_of_isConv (hd e he)

theorem remote_pre2 (ids : List String) (d1 d2 : List Event)
    (h1 : ∀ e ∈ d1, isConv e = true) (h2 : ∀ e ∈ d2, isConv e = true) :
    ∀ e ∈ ids.map Event.usersInfo ++ d1 ++ d2, isRemote e = true := by
  intro e he
  rcases List.mem_append.1 he with he | he
  · rcases List.mem_append.1 he with he | he
    · exact remote_infoEvs ids e he
    · exact isRemote_of_isConv (h1 e he)
  · exact isRemote_of_isConv (h2 e he)

/-- Every completed invocation of the Socket-Mode handler acknowledges first,
then performs only remote calls, and finishes with exactly one `say`. -/
theorem handlerSock_shape (env : Env) (text : String) (fuel : Nat) (tr : List Event)
    (h : handlerSock env text fuel = some tr) :
    ∃ pre m, tr = Event.ack :: pre ++ [Event.say m] ∧ ∀ e ∈ pre, isRemote e = true := by
  simp only [handlerSock] at h
  by_cases hguard : (sockParseIds text).length = 0 ∨ (sockParseIds text).length > 2
  · rw [if_pos hguard] at h
    obtain rfl := (Option.some.inj h)
    exact ⟨[], sockUsageMsg, rfl, by simp⟩
  · rw [if_neg hguard] at h
    rcases hres : resolveAll env (sockParseIds text) with e | us
    · simp only [hres] at h
      obtain rfl := (Option.some.inj h)
      exact ⟨_, sockErrMsg e, rfl, remote_infoEvs _⟩
    · simp only [hres] at h
      by_cases h1 : (sockParseIds text).length = 1
      · rw [if_pos h1] at h
        rcases us with _ | ⟨u1, _ | ⟨u2, rest⟩⟩
        · simp at h
        · rcases hf : fetchUserChannelsE env u1.id fuel with _ | ⟨fevs, r⟩
          · simp [hf] at h
          · simp only [hf] at h
            rcases fetchGoE_events env u1.id fuel none [] [] fevs r hf with ⟨d, hd, hconvs⟩
            rw [List.nil_append] at hd
            subst hd
            rcases r with e | ch
            · obtain rfl := (Option.some.inj h)
              exact ⟨_, sockErrMsg e, rfl, remote_pre_of_fetch _ _ hconvs⟩
            · obtain rfl := (Option.some.inj h)
              exact ⟨_, sockSingleMsg u1 ch, rfl, remote_pre_of_fetch _ _ hconvs⟩
        · simp at h
      · rw [if_neg h1] at h
        rcases us with _ | ⟨u1, _ | ⟨u2, _ | ⟨u3, rest⟩⟩⟩
        · simp at h
        · simp at h
        · rcases hf1 : fetchUserChannelsE env u1.id fuel with _ | ⟨evs1, r1⟩
          · simp [hf1] at h
          · rcases hf2 : fetchUserChannelsE env u2.id fuel with _ | ⟨evs2, r2⟩
            · simp [hf1, hf2] at h
            · simp only [hf1, hf2] at h
              rcases fetchGoE_events env u1.id fuel none [] [] evs1 r1 hf1 with ⟨d1, hd1, hc1⟩
              rcases fetchGoE_events env u2.id fuel none [] [] evs2 r2 hf2 with ⟨d2, hd2, hc2⟩
              rw [List.nil_append] at hd1 hd2
              subst hd1; subst hd2
              rcases r1 with e | c1
              · obtain rfl := (Option.some.inj h)
                exact ⟨_, sockErrMsg e, rfl, remote_pre2 _ _ _ hc1 hc2⟩
              · rcases r2 with e | c2
                · obtain rfl := (Option.some.inj h)
                  exact ⟨_, sockErrMsg e, rfl, remote_pre2 _ _ _ hc1 hc2⟩
                · obtain rfl := (Option.some.inj h)
                  exact ⟨_, sockCompareMsg u1 u2 c1 c2, rfl, remote_pre2 _ _ _ hc1 hc2⟩
        · simp at h

/-- Every completed invocation of the HTTP handler acknowledges first, then
performs only remote calls, and finishes with exactly one `say`. -/
theorem handlerApp_shape (env : Env) (text : String) (fuel : Nat) (tr : List Event)
    (h : handlerApp env text fuel = some tr) :
    ∃ pre m, tr = Event.ack :: pre ++ [Event.say m] ∧ ∀ e ∈ pre, isRemote e = true := by
  simp only [handlerApp] at h
  by_cases hguard : (appParseIds text).length = 0
  · rw [if_pos hguard] at h
    obtain rfl := (Option.some.inj h)
    exact ⟨[], appUsageMsg, rfl, by simp⟩
  · rw [if_neg hguard] at h
    rcases hres : resolveAll env (appParseIds text) with e | us
    · simp only [hres] at h
      obtain rfl := (Option.some.inj h)
      exact ⟨_, appErrMsg e, rfl, remote_infoEvs _⟩
    · simp only [hres] at h
      by_cases h1 : (appParseIds text).length = 1
      · rw [if_pos h1] at h
        rcases us with _ | ⟨u1, _ | ⟨u2, rest⟩⟩
        · simp at h
        · rcases hf : fetchUserChannelsE env u1.id fuel with _ | ⟨fevs, r⟩
          · simp [hf] at h
          · simp only [hf] at h
            rcases fetchGoE_events env u1.id fuel none [] [] fevs r hf with ⟨d, hd, hconvs⟩
            rw [List.nil_append] at hd
            subst hd
            rcases r with e | ch
            · obtain rfl := (Option.some.inj h)
              exact ⟨_, appErrMsg e, rfl, remote_pre_of_fetch _ _ hconvs⟩
            · obtain rfl := (Option.some.inj h)
              exact ⟨_, appSingleMsg u1 ch, rfl, remote_pre_of_fetch _ _ hconvs⟩
        · simp at h
      · rw [if_neg h1] at h
        by_cases h2 : (appParseIds text).length = 2
        · rw [if_pos h2] at h
          rcases us with _ | ⟨u1, _ | ⟨u2, _ | ⟨u3, rest⟩⟩⟩
          · simp at h
          · simp at h
          · rcases hf1 : fetchUserChannelsE env u1.id fuel with _ | ⟨evs1, r1⟩
            · simp [hf1] at h
            · rcases hf2 : fetchUserChannelsE env u2.id fuel with _ | ⟨evs2, r2⟩
              · simp [hf1, hf2] at h
              · simp only [hf1, hf2] at h
                rcases fetchGoE_events env u1.id fuel none [] [] evs1 r1 hf1 with ⟨d1, hd1, hc1⟩
                rcases fetchGoE_events env u2.id fuel none [] [] evs2 r2 hf2 with ⟨d2, hd2, hc2⟩
                rw [List.nil_append] at hd1 hd2
                subst hd1; subst hd2
                rcases r1 with e | c1
                · obtain rfl := (Option.some.inj h)
                  exact ⟨_, appErrMsg e, rfl, remote_pre2 _ _ _ hc1 hc2⟩
                · rcases r2 with e | c2
                  · obtain rfl := (Option.some.inj h)
                    exact ⟨_, appErrMsg e, rfl, remote_pre2 _ _ _ hc1 hc2⟩
                  · obtain rfl := (Option.some.inj h)
                    exact ⟨_, appCompareMsg u1 u2 c1 c2, rfl, remote_pre2 _ _ _ hc1 hc2⟩
          · simp at h
        · rw [if_neg h2] at h
          obtain rfl := (Option.some.inj h)
          exact ⟨_, appMaxTwoMsg, rfl, remote_infoEvs _⟩

theorem saysOf_cons_ack (l : List Event) : saysOf (Event.ack :: l) = saysOf l := by
  simp [saysOf]

theorem saysOf_trace_shape (pre : List Event) (m : Msg)
    (hpre : ∀ e ∈ pre, isRemote e = true) :
    saysOf (Event.ack :: pre ++ [Event.say m]) = [m] := by
  rw [saysOf_append, saysOf_cons_ack, saysOf_eq_nil_of_remote pre hpre]
  rfl

theorem remote_ne_ack {e : Event} (h : isRemote e = true) : e ≠ Event.ack := by
  cases e <;> simp_all [isRemote]

theorem collectExcept_ok_length {α : Type} :
    ∀ (l : List (Except String α)) (as : List α),
      collectExcept l = Except.ok as → as.length = l.length := by
  intro l
  induction l with
  | nil =>
    intro as h
    obtain rfl := Except.ok.inj h
    rfl
  | cons x rest ih =>
    intro as h
    rcases x with e | a
    · exact absurd h (by simp [collectExcept])
    · rw [collectExcept] at h
      rcases hr : collectExcept rest with e | as'
      · rw [hr] at h
        cases h
      · rw [hr] at h
        obtain rfl := Except.ok.inj h
        simp [ih as' hr]

theorem resolveAll_ok_length (env : Env) (ids : List String) (us : List UserProfile)
    (h : resolveAll env ids = Except.ok us) : us.length = ids.length := by
  have := collectExcept_ok_length (ids.map env.usersInfo) us h
  simpa using this

theorem suffix_infix_str (pre e : String) : e.data <:+: (pre ++ e).data := by
  rw [String.data_append]
  exact (List.suffix_append pre.data e.data).isInfix

/-! ## Lemmas about rendering -/

theorem infix_joinNL (f : Channel → String) (l : List Channel) (c : Channel) (h : c ∈ l) :
    (f c).data <:+: (joinNL (l.map f)).data := by
  induction l with
  | nil => cases h
  | cons x rest ih =>
    rcases List.mem_cons.1 h with rfl | hmem
    · rcases rest with _ | ⟨r, rs⟩
      · exact List.infix_refl _
      · have hp : (f c).data <+: (f c ++ ("\n") ++ joinNL ((r :: rs).map f)).data := by
          rw [String.data_append, String.data_append, List.append_assoc]
          exact List.prefix_append _ _
        exact hp.isInfix
    · rcases rest with _ | ⟨r, rs⟩
      · cases hmem
      · have hs : (joinNL ((r :: rs).map f)).data <:+
            (f x ++ ("\n") ++ joinNL ((r :: rs).map f)).data := by
          rw [String.data_append]
          exact List.suffix_append _ _
        exact (ih hmem).trans hs.isInfix

theorem chanLink_length_pos (c : Channel) : 0 < (chanLink c).length := by
  rw [chanLink, String.length_append]
  have h2 : ("- ").length = 2 := rfl
  omega

theorem joinNL_chanLink_ne_empty (ch : List Channel) (h : ch ≠ []) :
    joinNL (ch.map chanLink) ≠ "" := by
  rcases ch with _ | ⟨c, rest⟩
  · exact absurd rfl h
  · rcases rest with _ | ⟨d, ds⟩
    · intro hc
      have hpos := chanLink_length_pos c
      rw [show joinNL ([c].map chanLink) = chanLink c from rfl] at hc
      rw [hc] at hpos
      exact absurd hpos (by decide)
    · intro hc
      have heq : joinNL ((c :: d :: ds).map chanLink) =
          chanLink c ++ ("\n") ++ joinNL ((d :: ds).map chanLink) := rfl
      rw [heq] at hc
      have hlen := congrArg String.length hc
      rw [String.length_append, String.length_append] at hlen
      have hpos := chanLink_length_pos c
      have hnl : ("\n").length = 1 := rfl
      have hempty : ("").length = 0 := rfl
      omega

/-! ## Claim theorems -/

/-- C1: for every two-user invocation the comparison satisfies the set
invariant: the shared and unique-to-first ID sets partition the first user's
ID set, the shared and unique-to-second ID sets partition the second user's
ID set, the three derived lists are pairwise disjoint by channel ID, and each
derived list is a sublist of its source channel list (filtering in fetch
order, never re-sorting); all of this for arbitrary channel lists, including
overlapping, disjoint, identical and empty ones. -/
theorem comparison_partition_invariant (c1 c2 : List Channel) :
    idFinset (sharedChannels c1 c2) ∪ idFinset (user1UniqueChannels c1 c2) = idFinset c1 ∧
    idFinset (sharedChannels c1 c2) ∪ idFinset (user2UniqueChannels c1 c2) = idFinset c2 ∧
    Disjoint (idFinset (sharedChannels c1 c2)) (idFinset (user1UniqueChannels c1 c2)) ∧
    Disjoint (idFinset (sharedChannels c1 c2)) (idFinset (user2UniqueChannels c1 c2)) ∧
    Disjoint (idFinset (user1UniqueChannels c1 c2)) (idFinset (user2UniqueChannels c1 c2)) ∧
    (sharedChannels c1 c2).Sublist c1 ∧
    (user1UniqueChannels c1 c2).Sublist c1 ∧
    (user2UniqueChannels c1 c2).Sublist c2 := by
  refine ⟨?_, ?_, ?_, ?_, ?_, List.filter_sublist _, List.filter_sublist _, List.filter_sublist _⟩
  · ext i
    rw [Finset.mem_union, mem_idFinset_shared, mem_idFinset_u1, mem_idFinset]
    constructor
    · rintro (⟨h1, _⟩ | ⟨h1, _⟩) <;> exact h1
    · intro h1
      by_cases h2 : ∃ c ∈ c2, c.id = i
      · exact Or.inl ⟨h1, h2⟩
      · exact Or.inr ⟨h1, h2⟩
  · ext i
    rw [Finset.mem_union, mem_idFinset_shared, mem_idFinset_u2, mem_idFinset]
    constructor
    · rintro (⟨_, h2⟩ | ⟨h2, _⟩) <;> exact h2
    · intro h2
      by_cases h1 : ∃ c ∈ c1, c.id = i
      · exact Or.inl ⟨h1, h2⟩
      · exact Or.inr ⟨h2, h1⟩
  · rw [Finset.disjoint_left]
    intro i h1 h2
    rw [mem_idFinset_shared] at h1
    rw [mem_idFinset_u1] at h2
    exact h2.2 h1.2
  · rw [Finset.disjoint_left]
    intro i h1 h2
    rw [mem_idFinset_shared] at h1
    rw [mem_idFinset_u2] at h2
    exact h2.2 h1.1
  · rw [Finset.disjoint_left]
    intro i h1 h2
    rw [mem_idFinset_u1] at h1
    rw [mem_idFinset_u2] at h2
    exact h1.2 h2.1

/-- C10: when the two fetched channel lists are equal (in particular when the
same user is mentioned twice), the comparison yields the full list as shared
and both unique lists empty. -/
theorem comparison_of_equal_lists (c1 c2 : List Channel) (h : c1 = c2) :
    sharedChannels c1 c2 = c1 ∧
    user1UniqueChannels c1 c2 = [] ∧
    user2UniqueChannels c1 c2 = [] := by
  subst h
  refine ⟨?_, ?_, ?_⟩
  · rw [sharedChannels, List.filter_eq_self]
    intro a ha
    exact hasId_iff.2 ⟨a, ha, rfl⟩
  · rw [user1UniqueChannels, List.filter_eq_nil_iff]
    intro a ha
    simp [hasId_iff.2 ⟨a, ha, rfl⟩]
  · rw [user2UniqueChannels, List.filter_eq_nil_iff]
    intro a ha
    simp [hasId_iff.2 ⟨a, ha, rfl⟩]

/-- Witness for C10 at a concrete channel list. -/
theorem comparison_of_equal_lists_witness :
    sharedChannels [Channel.mk ("C1") ("general"), Channel.mk ("C2") ("eng")]
        [Channel.mk ("C1") ("general"), Channel.mk ("C2") ("eng")]
      = [Channel.mk ("C1") ("general"), Channel.mk ("C2") ("eng")] ∧
    user1UniqueChannels [Channel.mk ("C1") ("general"), Channel.mk ("C2") ("eng")]
        [Channel.mk ("C1") ("general"), Channel.mk ("C2") ("eng")] = [] ∧
    user2UniqueChannels [Channel.mk ("C1") ("general"), Channel.mk ("C2") ("eng")]
        [Channel.mk ("C1") ("general"), Channel.mk ("C2") ("eng")] = [] :=
  comparison_of_equal_lists _ _ rfl

/-- C8: both variants' input parsers yield exactly the ordered sequence of
user IDs described by the spec: split the raw text on whitespace discarding
empty tokens, extract an ID from each token via the leftmost
`<@([A-Z0-9]+)>` match, silently drop tokens with no match; order is
preserved and duplicates are kept (`specParseIds` is that description as a
`filterMap`, which by construction neither reorders nor deduplicates). -/
theorem input_parser_refines_spec (text : String) :
    appParseIds text = specParseIds text ∧ sockParseIds text = specParseIds text := by
  have hwords := wordsL_jsTrimL text.data
  by_cases h : jsTrimL text.data = []
  · have h2 : wordsL text.data = [] := by rw [← hwords, h]; rfl
    constructor
    · simp [appParseIds, appTokens, h, specParseIds, specTokens, h2,
        extractUserId, extractUserIdL]
    · simp [sockParseIds, sockTokens, appTokens, h, specParseIds, specTokens, h2]
  · have htok : appTokens text = wordsL text.data := by
      rw [appTokens]
      simp only [h, if_false]
      exact hwords
    constructor
    · rw [appParseIds, htok, specParseIds, specTokens]
    · rw [sockParseIds, sockTokens, htok, specParseIds, specTokens,
        List.filter_eq_self.2]
      intro t ht
      have := ne_nil_of_mem_wordsAux text.data [] t ht
      simpa using this

/-- C3: against a well-behaved upstream with `N = pages.length ≥ 1` pages —
every page carrying a non-empty next cursor except the last — the Channel
Fetcher returns the concatenation of all pages' channels in page order and
issues exactly `N` page requests (one per page, in order, starting from the
null cursor); in particular a user with zero channels (`pages = [[]]`) yields
the empty list from a single request rather than an error. -/
theorem pagination_fetches_all_pages (pages : List (List Channel)) (uid : String)
    (hne : pages ≠ []) (fuel : Nat) (hfuel : pages.length ≤ fuel) :
    fetchUserChannelsE (pagedEnv pages) uid fuel =
      some (pagedEvents uid pages, Except.ok pages.flatten) ∧
    (pagedEvents uid pages).length = pages.length := by
  constructor
  · rw [fetchUserChannelsE]
    have h0 : 0 < pages.length := List.length_pos.2 hne
    have h := fetchGoE_pagedEnv pages uid fuel 0 [] [] h0 (by omega)
    have hc0 : pageCursor 0 = none := by simp [pageCursor]
    rw [hc0] at h
    rw [h]
    simp [pagedEvents, List.range_eq_range']
  · simp [pagedEvents]

/-- Witness for C3: a three-page upstream (with an empty middle page) yields
the six channels' concatenation in three requests, and a one-page upstream
with no channels yields the empty list in one request. -/
theorem pagination_fetches_all_pages_witness :
    (([[Channel.mk ("C1") ("general")], [], [Channel.mk ("C2") ("eng")]] : List (List Channel)) ≠ [] ∧
      fetchUserChannelsE
          (pagedEnv [[Channel.mk ("C1") ("general")], [], [Channel.mk ("C2") ("eng")]]) ("U1") 3 =
        some (pagedEvents ("U1") [[Channel.mk ("C1") ("general")], [], [Channel.mk ("C2") ("eng")]],
              Except.ok [Channel.mk ("C1") ("general"), Channel.mk ("C2") ("eng")])) ∧
    (fetchUserChannelsE (pagedEnv [([] : List Channel)]) ("U1") 1 =
      some (pagedEvents ("U1") [[]], Except.ok [])) := by
  refine ⟨⟨by decide, ?_⟩, ?_⟩
  · have h := (pagination_fetches_all_pages
      [[Channel.mk ("C1") ("general")], [], [Channel.mk ("C2") ("eng")]] ("U1")
      (by decide) 3 (by decide)).1
    simpa using h
  · have h := (pagination_fetches_all_pages [([] : List Channel)] ("U1")
      (by decide) 1 (by decide)).1
    simpa using h

/-- C4 evidence: the pagination loop has no guard against a repeating cursor.
Against the misbehaving upstream `loopEnv`, which answers every request with
the non-empty cursor `"LOOP"`, the do/while cursor loop of
`fetchUserChannels` is still running after any number `fuel` of page
requests, i.e. the fetch never completes. -/
theorem pagination_diverges_on_repeating_cursor (uid : String) (fuel : Nat) :
    fetchUserChannelsE loopEnv uid fuel = none := by
  rw [fetchUserChannelsE]
  exact fetchGoE_loopEnv_none uid fuel none [] []

/-- C6: whatever path an invocation takes — usage error, single-user report,
two-user comparison, or failure — a completed invocation of either variant
sends exactly one content response (never zero, never more than one). -/
theorem exactly_one_response (env : Env) (text : String) (fuel : Nat) :
    (∀ tr, handlerSock env text fuel = some tr → (saysOf tr).length = 1) ∧
    (∀ tr, handlerApp env text fuel = some tr → (saysOf tr).length = 1) := by
  constructor
  · intro tr h
    rcases handlerSock_shape env text fuel tr h with ⟨pre, m, rfl, hpre⟩
    rw [saysOf_trace_shape pre m hpre]
    rfl
  · intro tr h
    rcases handlerApp_shape env text fuel tr h with ⟨pre, m, rfl, hpre⟩
    rw [saysOf_trace_shape pre m hpre]
    rfl

/-- Witness for C6: the usage path of each variant sends one response. -/
theorem exactly_one_response_witness :
    (saysOf [Event.ack, Event.say sockUsageMsg]).length = 1 ∧
    (saysOf [Event.ack, Event.say appUsageMsg]).length = 1 :=
  ⟨(exactly_one_response envOk ("") 0).1 [Event.ack, Event.say sockUsageMsg] rfl,
   (exactly_one_response envOk ("") 0).2 [Event.ack, Event.say appUsageMsg] rfl⟩

/-- C9: every completed invocation of either variant acknowledges the command
first — before any remote call — acknowledges it only once, and later sends a
content response, so the acknowledgment and the content response are two
distinct outbound effects. -/
theorem ack_first_then_response (env : Env) (text : String) (fuel : Nat) :
    (∀ tr, handlerSock env text fuel = some tr →
      ∃ rest, tr = Event.ack :: rest ∧ (∀ e ∈ rest, e ≠ Event.ack) ∧
        ∃ m, Event.say m ∈ rest) ∧
    (∀ tr, handlerApp env text fuel = some tr →
      ∃ rest, tr = Event.ack :: rest ∧ (∀ e ∈ rest, e ≠ Event.ack) ∧
        ∃ m, Event.say m ∈ rest) := by
  constructor
  · intro tr h
    rcases handlerSock_shape env text fuel tr h with ⟨pre, m, rfl, hpre⟩
    refine ⟨pre ++ [Event.say m], rfl, ?_, m, by simp⟩
    intro e he
    rcases List.mem_append.1 he with he | he
    · exact remote_ne_ack (hpre e he)
    · simp at he
      simp [he]
  · intro tr h
    rcases handlerApp_shape env text fuel tr h with ⟨pre, m, rfl, hpre⟩
    refine ⟨pre ++ [Event.say m], rfl, ?_, m, by simp⟩
    intro e he
    rcases List.mem_append.1 he with he | he
    · exact remote_ne_ack (hpre e he)
    · simp at he
      simp [he]

/-- C5: whenever a directory lookup or a channel-page fetch fails during an
invocation that got past the usage guard, the invocation sends exactly one
response — the generic error message, which embeds the underlying failure's
message (resolution and fetch failures are rendered through the same message
constructor, hence indistinguishable to the end user) — and never a partial
report.  Covers both variants; the HTTP variant additionally surfaces
resolution failures of over-two-user invocations the same way. -/
theorem failures_collapse_to_single_error (env : Env) (text : String) (fuel : Nat) :
    (∀ tr e, 1 ≤ (sockParseIds text).length → (sockParseIds text).length ≤ 2 →
      invocationFails env (sockParseIds text) fuel e →
      handlerSock env text fuel = some tr →
      saysOf tr = [sockErrMsg e] ∧ e.data <:+: (sockErrMsg e).text.data) ∧
    (∀ tr e, 1 ≤ (appParseIds text).length → (appParseIds text).length ≤ 2 →
      invocationFails env (appParseIds text) fuel e →
      handlerApp env text fuel = some tr →
      saysOf tr = [appErrMsg e] ∧ e.data <:+: (appErrMsg e).text.data) ∧
    (∀ tr e, 3 ≤ (appParseIds text).length →
      resolveAll env (appParseIds text) = Except.error e →
      handlerApp env text fuel = some tr →
      saysOf tr = [appErrMsg e] ∧ e.data <:+: (appErrMsg e).text.data) := by
  refine ⟨?_, ?_, ?_⟩
  · intro tr e hmin hmax hfail h
    simp only [handlerSock] at h
    have hguard : ¬((sockParseIds text).length = 0 ∨ (sockParseIds text).length > 2) := by
      omega
    rw [if_neg hguard] at h
    rcases hfail with hres | ⟨us, hres, hff⟩
    · simp only [hres] at h
      obtain rfl := Option.some.inj h
      exact ⟨saysOf_trace_shape _ _ (remote_infoEvs _), suffix_infix_str _ e⟩
    · have hlen := resolveAll_ok_length env _ us hres
      simp only [hres] at h
      by_cases hl1 : (sockParseIds text).length = 1
      · rw [if_pos hl1] at h
        rcases us with _ | ⟨u1, _ | ⟨u2, rest⟩⟩
        · rw [hl1] at hlen
          simp at hlen
        · simp only [firstFetchError] at hff
          rcases hf : fetchUserChannelsE env u1.id fuel with _ | ⟨fevs, r⟩
          · simp [hf] at hff
          · rcases r with e1 | ch
            · simp only [hf] at hff h
              obtain rfl := Option.some.inj hff
              obtain rfl := Option.some.inj h
              rcases fetchGoE_events env u1.id fuel none [] [] fevs _ hf with ⟨d, hd, hc⟩
              rw [List.nil_append] at hd
              subst hd
              exact ⟨saysOf_trace_shape _ _ (remote_pre_of_fetch _ _ hc),
                suffix_infix_str _ _⟩
            · simp [hf] at hff
        · rw [hl1] at hlen
          simp at hlen
      · have hl2 : (sockParseIds text).length = 2 := by omega
        rw [if_neg hl1] at h
        rcases us with _ | ⟨u1, _ | ⟨u2, _ | ⟨u3, rest⟩⟩⟩
        · rw [hl2] at hlen
          simp at hlen
        · rw [hl2] at hlen
          simp at hlen
        · simp only [firstFetchError] at hff
          rcases hf1 : fetchUserChannelsE env u1.id fuel with _ | ⟨evs1, r1⟩
          · simp [hf1] at hff
          · rcases hf2 : fetchUserChannelsE env u2.id fuel with _ | ⟨evs2, r2⟩
            · simp [hf1, hf2] at hff
            · simp only [hf1, hf2] at hff h
              rcases fetchGoE_events env u1.id fuel none [] [] evs1 _ hf1 with ⟨d1, hd1, hc1⟩
              rcases fetchGoE_events env u2.id fuel none [] [] evs2 _ hf2 with ⟨d2, hd2, hc2⟩
              rw [List.nil_append] at hd1 hd2
              subst hd1
              subst hd2
              rcases r1 with e1 | c1
              · obtain rfl := Option.some.inj hff
                obtain rfl := Option.some.inj h
                exact ⟨saysOf_trace_shape _ _ (remote_pre2 _ _ _ hc1 hc2),
                  suffix_infix_str _ _⟩
              · rcases r2 with e2 | c2
                · obtain rfl := Option.some.inj hff
                  obtain rfl := Option.some.inj h
                  exact ⟨saysOf_trace_shape _ _ (remote_pre2 _ _ _ hc1 hc2),
                    suffix_infix_str _ _⟩
                · simp at hff
        · rw [hl2] at hlen
          simp at hlen
  · intro tr e hmin hmax hfail h
    simp only [handlerApp] at h
    have hguard : ¬(appParseIds text).length = 0 := by omega
    rw [if_neg hguard] at h
    rcases hfail with hres | ⟨us, hres, hff⟩
    · simp only [hres] at h
      obtain rfl := Option.some.inj h
      exact ⟨saysOf_trace_shape _ _ (remote_infoEvs _), suffix_infix_str _ e⟩
    · have hlen := resolveAll_ok_length env _ us hres
      simp only [hres] at h
      by_cases hl1 : (appParseIds text).length = 1
      · rw [if_pos hl1] at h
        rcases us with _ | ⟨u1, _ | ⟨u2, rest⟩⟩
        · rw [hl1] at hlen
          simp at hlen
        · simp only [firstFetchError] at hff
          rcases hf : fetchUserChannelsE env u1.id fuel with _ | ⟨fevs, r⟩
          · simp [hf] at hff
          · rcases r with e1 | ch
            · simp only [hf] at hff h
              obtain rfl := Option.some.inj hff
              obtain rfl := Option.some.inj h
              rcases fetchGoE_events env u1.id fuel none [] [] fevs _ hf with ⟨d, hd, hc⟩
              rw [List.nil_append] at hd
              subst hd
              exact ⟨saysOf_trace_shape _ _ (remote_pre_of_fetch _ _ hc),
                suffix_infix_str _ _⟩
            · simp [hf] at hff
        · rw [hl1] at hlen
          simp at hlen
      · have hl2 : (appParseIds text).length = 2 := by omega
        rw [if_neg hl1, if_pos hl2] at h
        rcases us with _ | ⟨u1, _ | ⟨u2, _ | ⟨u3, rest⟩⟩⟩
        · rw [hl2] at hlen
          simp at hlen
        · rw [hl2] at hlen
          simp at hlen
        · simp only [firstFetchError] at hff
          rcases hf1 : fetchUserChannelsE env u1.id fuel with _ | ⟨evs1, r1⟩
          · simp [hf1] at hff
          · rcases hf2 : fetchUserChannelsE env u2.id fuel with _ | ⟨evs2, r2⟩
            · simp [hf1, hf2] at hff
            · simp only [hf1, hf2] at hff h
              rcases fetchGoE_events env u1.id fuel none [] [] evs1 _ hf1 with ⟨d1, hd1, hc1⟩
              rcases fetchGoE_events env u2.id fuel none [] [] evs2 _ hf2 with ⟨d2, hd2, hc2⟩
              rw [List.nil_append] at hd1 hd2
              subst hd1
              subst hd2
              rcases r1 with e1 | c1
              · obtain rfl := Option.some.inj hff
                obtain rfl := Option.some.inj h
                exact ⟨saysOf_trace_shape _ _ (remote_pre2 _ _ _ hc1 hc2),
                  suffix_infix_str _ _⟩
              · rcases r2 with e2 | c2
                · obtain rfl := Option.some.inj hff
                  obtain rfl := Option.some.inj h
                  exact ⟨saysOf_trace_shape _ _ (remote_pre2 _ _ _ hc1 hc2),
                    suffix_infix_str _ _⟩
                · simp at hff
        · rw [hl2] at hlen
          simp at hlen
  · intro tr e hmin hres h
    simp only [handlerApp] at h
    have hguard : ¬(appParseIds text).length = 0 := by omega
    rw [if_neg hguard] at h
    simp only [hres] at h
    obtain rfl := Option.some.inj h
    exact ⟨saysOf_trace_shape _ _ (remote_infoEvs _), suffix_infix_str _ e⟩

/-- Witness for C5: a failing directory lookup yields the single generic
error response carrying the failure's message. -/
theorem failures_collapse_to_single_error_witness :
    saysOf [Event.ack, Event.usersInfo ("U111"),
        Event.say (sockErrMsg ("user_not_found"))] = [sockErrMsg ("user_not_found")] ∧
    ("user_not_found").data <:+: (sockErrMsg ("user_not_found")).text.data :=
  (failures_collapse_to_single_error envNoUser ("<@U111>") 1).1 _ ("user_not_found")
    (by decide) (by decide) (Or.inl rfl) rfl

/-- C2 counterexample: for the HTTP variant (src/app.js), a command mentioning
three users parses to three valid IDs, yet the handler makes three directory
calls (`users.info`) before sending the usage-error response — so the claim
"0 or more than 2 valid user IDs ⟹ usage error and no remote calls at all"
is false on src/app.js, whose guard only checks for zero IDs. -/
theorem over_two_users_contacts_directory :
    (appParseIds ("<@U111> <@U222> <@U333>")).length = 3 ∧
    handlerApp envOk ("<@U111> <@U222> <@U333>") 1 =
      some [Event.ack, Event.usersInfo ("U111"), Event.usersInfo ("U222"),
        Event.usersInfo ("U333"), Event.say appMaxTwoMsg] ∧
    countRemote [Event.ack, Event.usersInfo ("U111"), Event.usersInfo ("U222"),
        Event.usersInfo ("U333"), Event.say appMaxTwoMsg] = 3 :=
  ⟨by decide, rfl, by decide⟩

/-- C2 amended: with 0 valid user IDs, or with more than 2 in the Socket-Mode
variant, the handler sends exactly the usage-error response and makes no
remote call at all; with more than 2 valid IDs the HTTP variant instead first
contacts the directory service once per parsed ID — fetching no channel
page — and then sends a single response: the max-two-users usage message, or
the generic error message if a lookup failed. -/
theorem usage_error_remote_calls (env : Env) (text : String) (fuel : Nat) :
    ((sockParseIds text).length = 0 ∨ (sockParseIds text).length > 2 →
      handlerSock env text fuel = some [Event.ack, Event.say sockUsageMsg]) ∧
    ((appParseIds text).length = 0 →
      handlerApp env text fuel = some [Event.ack, Event.say appUsageMsg]) ∧
    ((appParseIds text).length > 2 →
      handlerApp env text fuel =
        some (Event.ack :: (appParseIds text).map Event.usersInfo
          ++ [Event.say (appOver2Msg env (appParseIds text))])) := by
  refine ⟨?_, ?_, ?_⟩
  · intro hguard
    simp only [handlerSock]
    rw [if_pos hguard]
  · intro hguard
    simp only [handlerApp]
    rw [if_pos hguard]
  · intro hguard
    simp only [handlerApp]
    rw [if_neg (by omega : ¬(appParseIds text).length = 0)]
    have h1 : ¬(appParseIds text).length = 1 := by omega
    have h2 : ¬(appParseIds text).length = 2 := by omega
    rcases hres : resolveAll env (appParseIds text) with e | us
    · simp only [hres, appOver2Msg]
    · simp only [appOver2Msg, hres, if_neg h1, if_neg h2]

/-- Witness for the amended C2 at concrete inputs: the empty command text on
both variants, and a three-user command on the HTTP variant. -/
theorem usage_error_remote_calls_witness :
    handlerSock envOk ("") 0 = some [Event.ack, Event.say sockUsageMsg] ∧
    handlerApp envOk ("") 0 = some [Event.ack, Event.say appUsageMsg] ∧
    handlerApp envOk ("<@U111> <@U222> <@U333>") 0 =
      some (Event.ack :: (appParseIds ("<@U111> <@U222> <@U333>")).map Event.usersInfo
        ++ [Event.say (appOver2Msg envOk (appParseIds ("<@U111> <@U222> <@U333>")))]) :=
  ⟨(usage_error_remote_calls envOk ("") 0).1 (Or.inl (by decide)),
   (usage_error_remote_calls envOk ("") 0).2.1 (by decide),
   (usage_error_remote_calls envOk ("<@U111> <@U222> <@U333>") 0).2.2 (by decide)⟩

/-- C7 counterexample: the single-user report of the HTTP variant
(src/app.js lines 77–90) renders a channel as `- #general` — the channel's
name only, with no channel ID (`C1` appears nowhere in the line) — and
renders an empty channel list as the empty string rather than a placeholder;
the full handler trace shows this rendering reaching a real response. -/
theorem app_single_user_rendering_counterexample :
    handlerApp envOk ("<@U111>") 1 =
      some [Event.ack, Event.usersInfo ("U111"), Event.conversations ("U111") none,
        Event.say (appSingleMsg (UserProfile.mk ("U111") ("Alice") ("alice"))
          [Channel.mk ("C1") ("general")])] ∧
    appSingleListStr [Channel.mk ("C1") ("general")] = "- #general" ∧
    ¬ (("C1").data <:+: (appSingleListStr [Channel.mk ("C1") ("general")]).data) ∧
    appSingleListStr [] = "" :=
  ⟨rfl, rfl, by decide, rfl⟩

/-- C7 amended: in the two-user comparison reports of both variants and in
the single-user report of the Socket-Mode variant, every channel of an
itemized list is rendered as the link-style reference `<#id|name>` combining
its ID and its name, and an empty itemized list renders as an explicit
placeholder string — naming the category for the shared list and the user
for the unique lists, while the Socket-Mode single-user placeholder is the
generic `_No channels found._`; the HTTP variant's single-user report,
however, renders channels by name only and an empty list as an empty
string (see the counterexample). -/
theorem rendered_links_and_placeholders (u : UserProfile) (ch : List Channel) (c : Channel) :
    (c ∈ ch →
      (linkRef c).data <:+: (sockSingleListStr ch).data ∧
      (linkRef c).data <:+: (sockSharedStr ch).data ∧
      (linkRef c).data <:+: (appSharedStr ch).data ∧
      (linkRef c).data <:+: (sockUniqueStr u ch).data ∧
      (linkRef c).data <:+: (appUniqueStr u ch).data) ∧
    sockSingleListStr [] = "_No channels found._" ∧
    sockSharedStr [] = "_No shared channels found._" ∧
    appSharedStr [] = "No shared channels found." ∧
    sockUniqueStr u [] = "_" ++ dispSock u ++ " has no unique channels._" ∧
    appUniqueStr u [] = u.real_name ++ " has no unique channels." := by
  constructor
  · intro hmem
    have hne : ch ≠ [] := by
      rintro rfl
      cases hmem
    have hlen0 : ch.length ≠ 0 := by
      rcases ch with _ | ⟨x, xs⟩
      · exact absurd rfl hne
      · simp
    have hjoin : (chanLink c).data <:+: (joinNL (ch.map chanLink)).data :=
      infix_joinNL chanLink ch c hmem
    have hlink : (linkRef c).data <:+: (chanLink c).data := by
      rw [chanLink, String.data_append]
      exact (List.suffix_append _ _).isInfix
    have hmain := hlink.trans hjoin
    have hnonempty := joinNL_chanLink_ne_empty ch hne
    refine ⟨?_, ?_, ?_, ?_, ?_⟩
    · simp only [sockSingleListStr, if_neg hnonempty]
      exact hmain
    · simp only [sockSharedStr, if_pos hlen0]
      exact hmain
    · simp only [appSharedStr, if_pos (Nat.pos_of_ne_zero hlen0)]
      exact hmain
    · simp only [sockUniqueStr, if_pos hlen0]
      exact hmain
    · simp only [appUniqueStr, if_pos (Nat.pos_of_ne_zero hlen0)]
      exact hmain
  · exact ⟨rfl, rfl, rfl, rfl, rfl⟩

/-- Witness for the amended C7 at a concrete channel. -/
theorem rendered_links_and_placeholders_witness :
    (linkRef (Channel.mk ("C1") ("general"))).data <:+:
      (sockSingleListStr [Channel.mk ("C1") ("general")]).data ∧
    (linkRef (Channel.mk ("C1") ("general"))).data <:+:
      (appSharedStr [Channel.mk ("C1") ("general")]).data :=
  ⟨((rendered_links_and_placeholders (UserProfile.mk ("U1") ("Alice") ("alice"))
      [Channel.mk ("C1") ("general")] (Channel.mk ("C1") ("general"))).1
        (by decide)).1,
   ((rendered_links_and_placeholders (UserProfile.mk ("U1") ("Alice") ("alice"))
      [Channel.mk ("C1") ("general")] (Channel.mk ("C1") ("general"))).1
        (by decide)).2.2.1⟩

/-- Witness for C9: a concrete single-user invocation acknowledges first. -/
theorem ack_first_then_response_witness :
    ∃ rest, [Event.ack, Event.usersInfo ("U111"),
        Event.conversations ("U111") none,
        Event.say (sockSingleMsg (UserProfile.mk ("U111") ("Alice") ("alice"))
          [Channel.mk ("C1") ("general")])] = Event.ack :: rest ∧
      (∀ e ∈ rest, e ≠ Event.ack) ∧ ∃ m, Event.say m ∈ rest :=
  (ack_first_then_response envOk ("<@U111>") 1).1 _ rfl

end ChannelListTool
